import Mathlib

/-!
Verification development for the fedmsg-notify daemon
(`fedmsg_notify/daemon.py`).  The definitions below are a shallow
embedding of the daemon's message-routing, filter-registry,
notification-queue, icon-cache and preference-resolver logic.  External
collaborators (the `filters` module, `fedmsg.text` processors,
`fmn.lib.recipients`, `fedmsg.utils.load_class`, the HTTP layer) are
modelled as explicit parameters, since their code is not part of this
repository; everything that `daemon.py` itself computes is translated
directly from the source.
-/

namespace FedmsgNotify

/-- An inbound fedmsg message.  `topic` and `body` are the two fields the
daemon reads (`msg.get('body')`, `msg.get('topic')`); `openid` models
`msg['msg']['openid']`, the only field of the opaque body that
`consume` inspects directly (for `.fmn.` preference-change messages). -/
structure Msg where
  topic : String
  body : String
  openid : String
deriving DecidableEq, Repr

/-- A preference document as parsed from the JSON payload of the
preference fetch: a list of filters, each a list of rule `code_path`
strings (the only rule field `daemon.py` reads). -/
abbrev PrefDoc := List (List String)

/-- A repopulated preference: each rule's `code_path` paired with the
class loaded for it by `fedmsg.utils.load_class` (modelled as a `Nat`
tag produced by an external loader function). -/
abbrev Pref := List (List (String × Nat))

/-- Outcome of `requests.get` on the preference URL.
`failure` is a falsy (non-success) response object; `success none` is a
success whose body is not valid JSON (`response.json()` raises);
`success (some doc)` is a well-formed payload. -/
inductive FetchResult where
  | failure : FetchResult
  | success : Option PrefDoc → FetchResult
deriving DecidableEq, Repr

/-- The external collaborators of the routing pipeline:
`customMatch` is `CustomFilter.match(msg, processor)` for a filter
instance `(class name, init settings)`; `prefixMatch` is the compiled
`processor.__prefix__` regex match applied to a topic; `recipients` is
`fmn.lib.recipients`; `loadClass` is `fedmsg.utils.load_class`;
`fetch` is the response the HTTP layer yields for a preference fetch. -/
structure Ext where
  customMatch : String × String → Msg → Bool
  prefixMatch : String → String → Bool
  recipients : List Pref → Msg → List String
  loadClass : String → Nat
  fetch : FetchResult

/-- What one `consume` call did: whether the message survived the filter
stage, whether the `MessageReceived` DBus signal was emitted, and
whether `notify` (notification creation) was invoked. -/
structure ConsumeResult where
  matched : Bool
  signal_emitted : Bool
  notified : Bool
deriving DecidableEq, Repr

/-- The daemon state read and written by `consume` and
`settings_changed`: the routing mode flags, the user identity, the
active `CustomFilter` instances (class name paired with the settings
string they were constructed from), the `service_filters` prefix list,
the memoized `_preferences`, and the expiration duration. -/
structure DaemonState where
  use_server_prefs : Bool
  emit_dbus_signals : Bool
  openid : String
  enabled_filters : List String
  filters : List (String × String)
  service_filters : List String
  _preferences : List Pref
  expire : Nat
deriving DecidableEq, Repr

/-- The values `settings_changed` reads from GSettings:
`enabled_filters` is the result of `get_enabled_filters(settings)`,
`filter_settings` the parsed `filter-settings` JSON dictionary,
and the two scalar settings. -/
structure Settings where
  enabled_filters : List String
  filter_settings : List (String × String)
  emit_dbus_signals : Bool
  expiration : Nat
deriving DecidableEq, Repr

/-- Python's `pat in s` substring test (`'.fmn.' in topic`). -/
def strContains (s pat : String) : Bool :=
  (s.splitOn pat).length != 1

/-- `repopulate_functions` from the `preferences` property: annotate
every rule of the document with the class loaded from its
`code_path`. -/
def repopulate_functions (loadClass : String → Nat) (doc : PrefDoc) : Pref :=
  doc.map (fun fl => fl.map (fun cp => (cp, loadClass cp)))

/-- The `preferences` property, as a function of the memoized
`_preferences` value.  Returns `(value returned, new memoized value,
warning logged)`, or `.error` when `response.json()` raises on a
malformed payload (that exception is not caught in the source).
A falsy response logs a warning and returns `[]` without memoizing. -/
def preferences_core (ext : Ext) (stored : List Pref) :
    Except Unit (List Pref × List Pref × Bool) :=
  if stored.isEmpty then
    match ext.fetch with
    | .failure => .ok ([], stored, true)
    | .success none => .error ()
    | .success (some doc) =>
        let p := repopulate_functions ext.loadClass doc
        .ok ([p], [p], false)
  else
    .ok (stored, stored, false)

/-- The routing decision of `consume`, as a function of the fields of
the daemon state it reads.  Returns the new `_preferences` value and
the `ConsumeResult`; `.error` propagates the uncaught exception of a
malformed preference payload.  In server mode a `.fmn.` topic carrying
the local identity first clears the memoized preferences; then an empty
recipient set returns early with no side effects.  In local mode the
custom filters are tried in order, then the service prefix filters, and
a miss on both returns early with no side effects.

`invalidated` is the invalidation step: a `.fmn.` topic whose embedded
openid equals the local identity clears the memoized preferences. -/
def invalidated (stored : List Pref) (openid : String) (m : Msg) : List Pref :=
  if strContains m.topic ".fmn." && (m.openid == openid) then [] else stored

def consumeCore (ext : Ext) (use_server emit : Bool) (openid : String)
    (fils : List (String × String)) (sfils : List String)
    (stored : List Pref) (m : Msg) :
    Except Unit (List Pref × ConsumeResult) :=
  if use_server then
    match preferences_core ext (invalidated stored openid m) with
    | .error e => .error e
    | .ok (prefs, stored', _) =>
        if (ext.recipients prefs m).isEmpty then
          .ok (stored', ⟨false, false, false⟩)
        else
          .ok (stored', ⟨true, emit, true⟩)
  else
    if fils.any (fun f => ext.customMatch f m) then
      .ok (stored, ⟨true, emit, true⟩)
    else if sfils.any (fun p => ext.prefixMatch p m.topic) then
      .ok (stored, ⟨true, emit, true⟩)
    else
      .ok (stored, ⟨false, false, false⟩)

/-- `consume` over the daemon state: the only field it mutates is
`_preferences` (invalidation and memoization). -/
def consume (ext : Ext) (st : DaemonState) (m : Msg) :
    Except Unit (DaemonState × ConsumeResult) :=
  (consumeCore ext st.use_server_prefs st.emit_dbus_signals st.openid
      st.filters st.service_filters st._preferences m).map
    (fun pr => ({ st with _preferences := pr.1 }, pr.2))

/-- The preferences that `consume` resolves for a message in server
mode: invalidation first, then the `preferences` property. -/
def resolvedPrefs (ext : Ext) (st : DaemonState) (m : Msg) :
    Except Unit (List Pref) :=
  (preferences_core ext (invalidated st._preferences st.openid m)).map
    (fun r => r.1)

/-- One iteration of the `for filter in all_filters` loop of
`settings_changed`: remove instances of a name that was just disabled,
then append a fresh instance (constructed from its persisted settings
string, defaulting to empty) for a name that was just enabled.
`enabled` is the list of currently-instantiated class names, computed
once before the loop. -/
def filterStep (enabled ef : List String) (fset : List (String × String))
    (fs : List (String × String)) (name : String) :
    List (String × String) :=
  let fs1 :=
    if name ∈ enabled ∧ name ∉ ef then
      fs.filter (fun f => f.1 != name)
    else fs
  if name ∉ enabled ∧ name ∈ ef then
    fs1 ++ [(name, ((fset.lookup name).getD ""))]
  else fs1

/-- `settings_changed(settings, key)`: `self.enabled_filters` is
refreshed for every key; an `enabled-filters` change recomputes the
service prefix filters from the enabled processors and reconciles the
`CustomFilter` instances; a `filter-settings` change deliberately does
nothing more; `emit-dbus-signals` and `expiration` update their scalar
fields; unknown keys are logged and ignored.  `all_filters` is the
list of available filter class names from the `filters` module, and
`procs` the `fedmsg.text.processors` as `(name, prefix)` pairs. -/
def settings_changed (s : Settings) (all_filters : List String)
    (procs : List (String × String)) (key : String)
    (st : DaemonState) : DaemonState :=
  let st := { st with enabled_filters := s.enabled_filters }
  if key = "enabled-filters" then
    let service_filters :=
      (procs.filter (fun p => p.1 ∈ st.enabled_filters)).map Prod.snd
    let enabled := st.filters.map Prod.fst
    let filters :=
      all_filters.foldl (filterStep enabled st.enabled_filters s.filter_settings)
        st.filters
    { st with service_filters := service_filters, filters := filters }
  else if key = "filter-settings" then
    st
  else if key = "emit-dbus-signals" then
    { st with emit_dbus_signals := s.emit_dbus_signals }
  else if key = "expiration" then
    { st with expire := s.expiration }
  else
    st

/-- The notification queue state: `notifications` holds the ids of the
active notes front-first (`self.notifications`), `closed` the ids on
which `close()` has been called, `timers` the `(delay, id)` pairs
scheduled through `reactor.callLater`. -/
structure NQState where
  notifications : List Nat
  closed : List Nat
  timers : List (Nat × Nat)
deriving DecidableEq, Repr

/-- The queue update of `display_notification`: insert the new note at
the front, then, if the length has reached or passed
`max_notifications`, pop the tail and close it. -/
def push_note (maxN : Nat) (note : Nat) (st : NQState) : NQState :=
  if maxN ≤ (note :: st.notifications).length then
    { st with
        notifications := (note :: st.notifications).dropLast,
        closed := (note :: st.notifications).getLastD 0 :: st.closed }
  else
    { st with notifications := note :: st.notifications }

/-- The queue and timer effects of `display_notification`: the push
above, followed by `reactor.callLater(self.expire, note.close)` when a
nonzero expiration is configured. -/
def display_notification (maxN expire : Nat) (note : Nat) (st : NQState) :
    NQState :=
  let st' := push_note maxN note st
  if expire ≠ 0 then { st' with timers := (expire, note) :: st'.timers }
  else st'

/-- Firing a scheduled expiration callback: the callback is
`note.close`, so the note is marked closed and nothing else in the
state changes. -/
def fire_timer (note : Nat) (st : NQState) : NQState :=
  { st with closed := note :: st.closed }

/-- The notification-closing loop of `__del__`.  Each note carries a
flag saying whether its `close()` raises `GLib.GError`; the whole loop
sits inside one `try`, so the first raising note aborts the remaining
iterations.  The result is the list of ids actually closed. -/
def close_notifications : List (Nat × Bool) → List Nat
  | [] => []
  | n :: rest => if n.2 then [] else n.1 :: close_notifications rest

/-- `get_icons(body)`: the cached primary and secondary icon paths go
in as `Option`s (a `dict.get` miss is `None`); the pair returned is
`(ico, hint)` following the source's truthiness logic, including the
`icon and icon or secondary_icon` expression. -/
def get_icons (icon secondary_icon : Option String) :
    Option String × Option String :=
  match secondary_icon with
  | some s => (some s, some (icon.getD s))
  | none =>
      match icon with
      | some i => (some i, some i)
      | none => (none, none)

/-- How `display_notification` renders the pair returned by
`get_icons`: the first component becomes the notification's main icon
(`Notify.Notification.new(title, subtitle, icon)`), the second is set
as the `image-path` hint when truthy. -/
structure NoteView where
  main_icon : Option String
  image_path_hint : Option String
deriving DecidableEq, Repr

/-- The icon fields of the displayed notification for given cached
primary and secondary icon lookups. -/
def displayed_icons (icon secondary_icon : Option String) : NoteView :=
  let p := get_icons icon secondary_icon
  { main_icon := p.1, image_path_hint := p.2 }

/-- The icon cache state: `cache` is `self._icon_cache` (keys are both
reference strings and content checksums, values are local paths) and
`disk` maps filenames in the cache directory to their byte content. -/
structure IconState where
  cache : List (String × String)
  disk : List (String × List Nat)
deriving DecidableEq, Repr

/-- `cache_icon(results, icon_url, filename)`: a missing file means the
download failed and nothing happens; otherwise the content checksum is
computed and either the reference is aliased to the existing path and
the fresh file unlinked, or both the reference and the checksum are
registered as pointing at the new file. -/
def cache_icon (hash : List Nat → String) (st : IconState)
    (icon_url filename : String) : IconState :=
  match st.disk.lookup filename with
  | none => st
  | some content =>
      let checksum := hash content
      match st.cache.lookup checksum with
      | some path =>
          { st with
              cache := (icon_url, path) :: st.cache,
              disk := st.disk.filter (fun e => e.1 != filename) }
      | none =>
          { st with cache := (icon_url, filename) :: (checksum, filename) :: st.cache }

/-- `get_icon(icon)` on the path where the reference is not cached and
the download succeeds, yielding `content`: the stable filename is
derived from the reference (`uuid.uuid5(NAMESPACE_URL, icon)`); an
existing file of that name is registered directly; otherwise the
content is written there and `cache_icon` runs. -/
def get_icon_download (hash : List Nat → String) (uuid5 : String → String)
    (st : IconState) (icon : String) (content : List Nat) : IconState :=
  if (st.cache.lookup icon).isSome then st
  else
    let filename := uuid5 icon
    if (st.disk.lookup filename).isSome then
      { st with cache := (icon, filename) :: st.cache }
    else
      let st' := { st with disk := (filename, content) :: st.disk }
      cache_icon hash st' icon filename

/-- An empty notification queue state, for concrete runs. -/
def nqEmpty : NQState := ⟨[], [], []⟩

/-- A concrete external environment whose preference fetch succeeds but
yields a malformed payload. -/
def extMalformed : Ext where
  customMatch := fun _ _ => false
  prefixMatch := fun _ _ => false
  recipients := fun _ _ => []
  loadClass := fun _ => 0
  fetch := .success none

/-- A concrete external environment whose preference fetch is a
non-success (falsy) response. -/
def extFail : Ext where
  customMatch := fun _ _ => false
  prefixMatch := fun _ _ => false
  recipients := fun _ _ => []
  loadClass := fun _ => 0
  fetch := .failure

/-- A concrete external environment in which no filter matches
anything. -/
def extNoMatch : Ext where
  customMatch := fun _ _ => false
  prefixMatch := fun _ _ => false
  recipients := fun _ _ => []
  loadClass := fun _ => 0
  fetch := .failure

/-- A concrete daemon state in local-filter mode with one custom filter
and one service prefix filter active. -/
def stLocal : DaemonState where
  use_server_prefs := false
  emit_dbus_signals := true
  openid := "jdoe.id.fedoraproject.org"
  enabled_filters := ["MyFilter"]
  filters := [("MyFilter", "cfg")]
  service_filters := ["org.fedoraproject.prod.bodhi"]
  _preferences := []
  expire := 0

/-- A concrete message for witness runs. -/
def msg0 : Msg where
  topic := "org.fedoraproject.prod.compose.complete"
  body := "body"
  openid := "someone.id.fedoraproject.org"

/-- Concrete settings for a filter-reconciliation run: filters `B` and
`C` enabled, with a persisted configuration string for `B`. -/
def s8 : Settings := ⟨["B", "C"], [("B", "bconf")], true, 0⟩

/-- A concrete daemon state with custom filters `A` and `C`
instantiated. -/
def stReg : DaemonState where
  use_server_prefs := false
  emit_dbus_signals := true
  openid := "x"
  enabled_filters := ["A", "C"]
  filters := [("A", "sa"), ("C", "sc")]
  service_filters := []
  _preferences := []
  expire := 0

/-- Concrete processors (name, topic prefix) for the reconciliation
run. -/
def procs8 : List (String × String) := [("B", "org.b."), ("X", "org.x.")]

/-- Scheduling a timer does not touch the queue or the closed set. -/
theorem display_eq_push (maxN expire note : Nat) (st : NQState) :
    (display_notification maxN expire note st).notifications =
      (push_note maxN note st).notifications ∧
    (display_notification maxN expire note st).closed =
      (push_note maxN note st).closed := by
  unfold display_notification
  split <;> exact ⟨rfl, rfl⟩

/-- Claim C10: when both icons resolve, the displayed notification uses
the secondary icon as its main icon and the primary icon as the
`image-path` hint; when only the primary resolves it serves as both. -/
theorem displayed_icons_swap_roles :
    ∀ p s : String,
      displayed_icons (some p) (some s) =
        ⟨some s, some p⟩ ∧
      displayed_icons (some p) none = ⟨some p, some p⟩ := by
  intro p s
  exact ⟨rfl, rfl⟩

/-- Claim C7 (counterexample): a successful fetch with a malformed
payload makes the `preferences` property raise (the `response.json()`
`ValueError` is not caught), instead of warning and returning an empty
preference set. -/
theorem preferences_malformed_raises :
    preferences_core extMalformed [] = .error () := rfl

/-- Claim C7 (amended): on a non-success (falsy) response the
`preferences` property logs a warning and returns an empty preference
set without raising and without memoizing; a malformed payload, in
contrast, raises. -/
theorem preferences_failure_returns_empty (ext : Ext) (stored : List Pref)
    (hp : stored = []) (hf : ext.fetch = .failure) :
    preferences_core ext stored = .ok ([], stored, true) := by
  subst hp
  simp [preferences_core, hf]

/-- Claim C7 (witness): the amended behavior at a concrete failing
fetch. -/
theorem preferences_failure_returns_empty_witness :
    preferences_core extFail [] = .ok ([], [], true) :=
  preferences_failure_returns_empty extFail [] rfl rfl

/-- Claim C3 (counterexample): with `max-notifications = 2` and an
initially empty queue, after three pushes the queue does not hold 2
notifications (it holds exactly one, because the eviction check fires
as soon as the length reaches the maximum). -/
theorem three_pushes_not_two_left :
    (display_notification 2 0 3
      (display_notification 2 0 2
        (display_notification 2 0 1 nqEmpty))).notifications.length ≠ 2 := by
  decide

/-- Claim C3 (amended): with `max-notifications = 2` and an initially
empty queue, after three pushes the queue holds exactly one
notification (the third), and both the first- and the second-created
notifications have been closed. -/
theorem three_pushes_one_left :
    (display_notification 2 0 3
      (display_notification 2 0 2
        (display_notification 2 0 1 nqEmpty))).notifications = [3] ∧
    1 ∈ (display_notification 2 0 3
      (display_notification 2 0 2
        (display_notification 2 0 1 nqEmpty))).closed ∧
    2 ∈ (display_notification 2 0 3
      (display_notification 2 0 2
        (display_notification 2 0 1 nqEmpty))).closed := by
  decide

/-- Claim C5 (counterexample): after a notification is displayed with a
nonzero expiration and its timer fires, the notification has been
closed but is still in the queue — the timer callback is `note.close`
and performs no removal. -/
theorem timer_does_not_remove :
    (fire_timer 7 (display_notification 10 5 7 nqEmpty)).notifications = [7] ∧
    7 ∈ (fire_timer 7 (display_notification 10 5 7 nqEmpty)).closed := by
  decide

/-- Claim C5 (amended): with a nonzero configured expiration, a
one-shot timer with exactly that delay is scheduled for the new
notification; firing it closes the notification but leaves the queue
unchanged, and closing is idempotent: the set of closed notifications
gains nothing new when the notification was already closed. -/
theorem timer_closes_without_removal (maxN expire note : Nat) (st : NQState)
    (h : expire ≠ 0) :
    (expire, note) ∈ (display_notification maxN expire note st).timers ∧
    ∀ s : NQState,
      (fire_timer note s).notifications = s.notifications ∧
      note ∈ (fire_timer note s).closed ∧
      ∀ x, x ∈ (fire_timer note s).closed ↔ x = note ∨ x ∈ s.closed := by
  constructor
  · unfold display_notification
    simp [h]
  · intro s
    refine ⟨rfl, ?_, ?_⟩
    · exact List.mem_cons_self ..
    · intro x
      simp [fire_timer, List.mem_cons]

/-- Claim C5 (witness): the amended behavior at a concrete push with
expiration 5. -/
theorem timer_closes_without_removal_witness :
    (5, 7) ∈ (display_notification 10 5 7 nqEmpty).timers ∧
    ∀ s : NQState,
      (fire_timer 7 s).notifications = s.notifications ∧
      7 ∈ (fire_timer 7 s).closed ∧
      ∀ x, x ∈ (fire_timer 7 s).closed ↔ x = 7 ∨ x ∈ s.closed :=
  timer_closes_without_removal 10 5 7 nqEmpty (by decide)

/-- Claim C6 (counterexample): with two active notifications of which
the first raises `GLib.GError` on close, the shutdown loop closes
neither — the single `try` around the whole loop lets one failure
abort all remaining closes, contradicting the per-notification
containment the claim states. -/
theorem close_loop_aborts_on_error :
    2 ∉ close_notifications [(1, true), (2, false)] := by
  decide

/-- Claim C6 (amended): the shutdown loop closes the notifications in
order up to, but excluding, the first whose close raises
`GLib.GError`; that exception is caught (silently, without logging)
outside the loop, so no later notification is closed, and the queue
list itself is never cleared. -/
theorem close_loop_closes_prefix (pre : List (Nat × Bool)) (n : Nat)
    (post : List (Nat × Bool)) (h : ∀ p ∈ pre, p.2 = false) :
    close_notifications (pre ++ (n, true) :: post) = pre.map Prod.fst := by
  induction pre with
  | nil => simp [close_notifications]
  | cons p pre ih =>
      have hp : p.2 = false := h p (by simp)
      have ih' := ih (fun q hq => h q (by simp [hq]))
      simp [close_notifications, hp, ih']

/-- Claim C6 (witness): the amended behavior at a concrete three-note
queue whose middle note raises on close. -/
theorem close_loop_closes_prefix_witness :
    close_notifications ([(1, false)] ++ (2, true) :: [(3, false)]) =
      [(1, false)].map Prod.fst :=
  close_loop_closes_prefix [(1, false)] 2 [(3, false)] (by decide)

/-- Claim C2: a push inserts the new notification at the front, and
afterwards the queue size never exceeds `max-notifications`: whenever
the length after insertion reaches or exceeds the maximum, the oldest
entry (the tail) is removed and closed. -/
theorem push_keeps_bound (maxN expire note : Nat) (st : NQState)
    (h : st.notifications.length ≤ maxN) :
    (display_notification maxN expire note st).notifications.length ≤ maxN ∧
    (maxN ≤ (note :: st.notifications).length →
      (display_notification maxN expire note st).notifications =
        (note :: st.notifications).dropLast ∧
      (note :: st.notifications).getLastD 0 ∈
        (display_notification maxN expire note st).closed) ∧
    ((note :: st.notifications).length < maxN →
      (display_notification maxN expire note st).notifications =
        note :: st.notifications) ∧
    (2 ≤ maxN →
      (display_notification maxN expire note st).notifications.head? =
        some note) := by
  obtain ⟨he1, he2⟩ := display_eq_push maxN expire note st
  rw [he1, he2]
  unfold push_note
  by_cases hq : maxN ≤ (note :: st.notifications).length
  · rw [if_pos hq]
    refine ⟨?_, fun _ => ⟨rfl, ?_⟩, fun h' => absurd hq (by omega), fun h2 => ?_⟩
    · show ((note :: st.notifications).dropLast).length ≤ maxN
      rw [List.length_dropLast]
      simp only [List.length_cons]
      omega
    · exact List.mem_cons_self ..
    · show ((note :: st.notifications).dropLast).head? = some note
      have hnil : st.notifications ≠ [] := by
        intro hn
        rw [hn] at hq
        simp at hq
        omega
      rw [List.dropLast_cons_of_ne_nil hnil]
      rfl
  · rw [if_neg hq]
    refine ⟨?_, fun h' => absurd h' hq, fun _ => rfl, fun _ => rfl⟩
    show (note :: st.notifications).length ≤ maxN
    simp only [List.length_cons] at hq ⊢
    omega

/-- Claim C2 (witness): the bound at a concrete push onto a one-element
queue with maximum 2. -/
theorem push_keeps_bound_witness :
    (display_notification 2 0 9 ⟨[4], [], []⟩).notifications.length ≤ 2 ∧
    (2 ≤ (9 :: (NQState.mk [4] [] []).notifications).length →
      (display_notification 2 0 9 ⟨[4], [], []⟩).notifications =
        (9 :: (NQState.mk [4] [] []).notifications).dropLast ∧
      (9 :: (NQState.mk [4] [] []).notifications).getLastD 0 ∈
        (display_notification 2 0 9 ⟨[4], [], []⟩).closed) ∧
    ((9 :: (NQState.mk [4] [] []).notifications).length < 2 →
      (display_notification 2 0 9 ⟨[4], [], []⟩).notifications =
        9 :: (NQState.mk [4] [] []).notifications) ∧
    (2 ≤ 2 →
      (display_notification 2 0 9 ⟨[4], [], []⟩).notifications.head? =
        some 9) :=
  push_keeps_bound 2 0 9 ⟨[4], [], []⟩ (by decide)

/-- The routing decision of `consume` depends only on the fields the
source reads; two states agreeing on them yield the same result. -/
theorem consume_decision_eq (ext : Ext) (st₁ st₂ : DaemonState) (m : Msg)
    (h1 : st₁.use_server_prefs = st₂.use_server_prefs)
    (h2 : st₁.emit_dbus_signals = st₂.emit_dbus_signals)
    (h3 : st₁.openid = st₂.openid)
    (h4 : st₁.filters = st₂.filters)
    (h5 : st₁.service_filters = st₂.service_filters)
    (h6 : st₁._preferences = st₂._preferences) :
    (consume ext st₁ m).map (fun r => r.2) =
      (consume ext st₂ m).map (fun r => r.2) := by
  unfold consume
  rw [h1, h2, h3, h4, h5, h6]
  cases consumeCore ext st₂.use_server_prefs st₂.emit_dbus_signals st₂.openid
      st₂.filters st₂.service_filters st₂._preferences m with
  | error e => rfl
  | ok val => rfl

/-- Claim C1: a message matched by no custom filter and no service
prefix filter in local mode, or resolving to an empty recipient set in
server mode, makes `consume` return without emitting the
`MessageReceived` signal and without creating a notification. -/
theorem consume_no_match_silent (ext : Ext) (st : DaemonState) (m : Msg)
    (hL : st.use_server_prefs = false →
      (∀ f ∈ st.filters, ext.customMatch f m = false) ∧
      (∀ p ∈ st.service_filters, ext.prefixMatch p m.topic = false))
    (hS : st.use_server_prefs = true →
      ∃ prefs, resolvedPrefs ext st m = .ok prefs ∧
        ext.recipients prefs m = []) :
    ∃ st', consume ext st m = .ok (st', ⟨false, false, false⟩) := by
  by_cases hu : st.use_server_prefs = true
  · obtain ⟨prefs, hres, hrec⟩ := hS hu
    unfold resolvedPrefs at hres
    unfold consume consumeCore
    rw [if_pos hu]
    cases hpc : preferences_core ext (invalidated st._preferences st.openid m) with
    | error e =>
        rw [hpc] at hres
        simp [Except.map] at hres
    | ok val =>
        obtain ⟨p1, p2, p3⟩ := val
        rw [hpc] at hres
        simp [Except.map] at hres
        subst hres
        dsimp only
        rw [hrec]
        simp only [List.isEmpty_nil, if_true]
        exact ⟨_, rfl⟩
  · have hu' : st.use_server_prefs = false := by
      cases h : st.use_server_prefs
      · rfl
      · exact absurd h hu
    obtain ⟨h1, h2⟩ := hL hu'
    unfold consume consumeCore
    rw [if_neg hu]
    have ha1 : st.filters.any (fun f => ext.customMatch f m) = false := by
      rw [List.any_eq_false]
      intro f hf
      rw [h1 f hf]
      simp
    have ha2 : st.service_filters.any (fun p => ext.prefixMatch p m.topic) = false := by
      rw [List.any_eq_false]
      intro p hp
      rw [h2 p hp]
      simp
    rw [ha1, ha2]
    exact ⟨_, rfl⟩

/-- Claim C1 (witness): a concrete local-mode state where nothing
matches yields a silent `consume`. -/
theorem consume_no_match_silent_witness :
    ∃ st', consume extNoMatch stLocal msg0 = .ok (st', ⟨false, false, false⟩) :=
  consume_no_match_silent extNoMatch stLocal msg0
    (fun _ => ⟨by decide, by decide⟩)
    (fun h => absurd h (by decide))

/-- Claim C9: a `filter-settings` change re-instantiates no filter —
the active custom filter set and the service prefix set are unchanged,
and the routing decision of `consume` on any message is the same
before and after. -/
theorem filter_settings_change_noop (s : Settings) (af : List String)
    (procs : List (String × String)) (st : DaemonState) (ext : Ext)
    (m : Msg) :
    (settings_changed s af procs "filter-settings" st).filters = st.filters ∧
    (settings_changed s af procs "filter-settings" st).service_filters =
      st.service_filters ∧
    (consume ext (settings_changed s af procs "filter-settings" st) m).map
        (fun r => r.2) =
      (consume ext st m).map (fun r => r.2) := by
  have hst : settings_changed s af procs "filter-settings" st =
      { st with enabled_filters := s.enabled_filters } := by
    unfold settings_changed
    rw [if_neg (by decide), if_pos rfl]
  rw [hst]
  exact ⟨rfl, rfl,
    consume_decision_eq ext _ st m rfl rfl rfl rfl rfl rfl⟩

/-- Association-list lookup skips an entry with a different key. -/
theorem lookup_cons_ne {β : Type} (k a : String) (v : β)
    (l : List (String × β)) (h : a ≠ k) :
    ((k, v) :: l).lookup a = l.lookup a := by
  rw [List.lookup_cons]
  have : (a == k) = false := by
    simp [h]
  rw [this]

/-- Removing a key that is not present leaves an association list
unchanged. -/
theorem lookup_none_filter_ne {β : Type} (l : List (String × β)) (k : String)
    (h : l.lookup k = none) : l.filter (fun e => e.1 != k) = l := by
  induction l with
  | nil => rfl
  | cons p l ih =>
      obtain ⟨pk, pv⟩ := p
      by_cases hk : k = pk
      · subst hk
        rw [List.lookup_cons_self] at h
        exact absurd h (by simp)
      · rw [lookup_cons_ne pk k pv l hk] at h
        rw [List.filter_cons]
        have hne : ((pk, pv).1 != k) = true := by
          simp
          exact fun he => hk he.symm
        rw [hne, ih h]
        simp

/-- Claim C4: two distinct icon references whose downloads yield
byte-identical content end up cached at the same local path, the
content is stored in exactly one physical file, and the redundant
second download has been unlinked. -/
theorem icon_dedup (hash : List Nat → String) (uuid5 : String → String)
    (st0 : IconState) (A B : String) (c : List Nat)
    (hAB : A ≠ B)
    (hAh : A ≠ hash c)
    (hBh : B ≠ hash c)
    (hf : uuid5 A ≠ uuid5 B)
    (hcA : st0.cache.lookup A = none)
    (hcB : st0.cache.lookup B = none)
    (hch : st0.cache.lookup (hash c) = none)
    (hdA : st0.disk.lookup (uuid5 A) = none)
    (hdB : st0.disk.lookup (uuid5 B) = none)
    (hcount : st0.disk.countP (fun e => e.2 == c) = 0) :
    ((get_icon_download hash uuid5 (get_icon_download hash uuid5 st0 A c) B c).cache.lookup A =
      some (uuid5 A)) ∧
    ((get_icon_download hash uuid5 (get_icon_download hash uuid5 st0 A c) B c).cache.lookup B =
      some (uuid5 A)) ∧
    ((get_icon_download hash uuid5 (get_icon_download hash uuid5 st0 A c) B c).disk.countP
      (fun e => e.2 == c) = 1) ∧
    ((get_icon_download hash uuid5 (get_icon_download hash uuid5 st0 A c) B c).disk.lookup
      (uuid5 B) = none) := by
  have h1 : get_icon_download hash uuid5 st0 A c =
      ⟨(A, uuid5 A) :: (hash c, uuid5 A) :: st0.cache,
       (uuid5 A, c) :: st0.disk⟩ := by
    unfold get_icon_download cache_icon
    simp [hcA, hdA, hch]
  rw [h1]
  have l1 : ((A, uuid5 A) :: (hash c, uuid5 A) :: st0.cache).lookup B = none := by
    rw [lookup_cons_ne _ _ _ _ (Ne.symm hAB), lookup_cons_ne _ _ _ _ hBh]
    exact hcB
  have l2 : ((uuid5 A, c) :: st0.disk).lookup (uuid5 B) = none := by
    rw [lookup_cons_ne _ _ _ _ (Ne.symm hf)]
    exact hdB
  have l3 : ((A, uuid5 A) :: (hash c, uuid5 A) :: st0.cache).lookup (hash c) =
      some (uuid5 A) := by
    rw [lookup_cons_ne _ _ _ _ (Ne.symm hAh)]
    exact List.lookup_cons_self
  have l4 : ((uuid5 B, c) :: (uuid5 A, c) :: st0.disk).filter
      (fun e => e.1 != uuid5 B) = (uuid5 A, c) :: st0.disk := by
    rw [List.filter_cons, List.filter_cons]
    have hb1 : (((uuid5 B, c) : String × List Nat).1 != uuid5 B) = false := by
      simp
    have hb2 : (((uuid5 A, c) : String × List Nat).1 != uuid5 B) = true := by
      simp [hf]
    rw [hb1, hb2, lookup_none_filter_ne st0.disk (uuid5 B) hdB]
    simp
  have h2 : get_icon_download hash uuid5
      (⟨(A, uuid5 A) :: (hash c, uuid5 A) :: st0.cache,
        (uuid5 A, c) :: st0.disk⟩ : IconState) B c =
      ⟨(B, uuid5 A) :: (A, uuid5 A) :: (hash c, uuid5 A) :: st0.cache,
       (uuid5 A, c) :: st0.disk⟩ := by
    unfold get_icon_download cache_icon
    simp only [l1, l2, l3, Option.isSome_none, Bool.false_eq_true, if_false,
      List.lookup_cons_self]
    simp [l4]
  rw [h2]
  refine ⟨?_, ?_, ?_, ?_⟩
  · rw [lookup_cons_ne _ _ _ _ hAB]
    exact List.lookup_cons_self
  · exact List.lookup_cons_self
  · rw [List.countP_cons]
    simp [hcount]
  · rw [lookup_cons_ne _ _ _ _ (Ne.symm hf)]
    exact hdB

/-- Claim C4 (witness): the deduplication at a concrete pair of
references with identical content, starting from an empty cache. -/
theorem icon_dedup_witness :
    ((get_icon_download (fun _ => "H") (fun s => s ++ "!")
        (get_icon_download (fun _ => "H") (fun s => s ++ "!") ⟨[], []⟩ "a" [7])
        "b" [7]).cache.lookup "a" = some ("a" ++ "!")) ∧
    ((get_icon_download (fun _ => "H") (fun s => s ++ "!")
        (get_icon_download (fun _ => "H") (fun s => s ++ "!") ⟨[], []⟩ "a" [7])
        "b" [7]).cache.lookup "b" = some ("a" ++ "!")) ∧
    ((get_icon_download (fun _ => "H") (fun s => s ++ "!")
        (get_icon_download (fun _ => "H") (fun s => s ++ "!") ⟨[], []⟩ "a" [7])
        "b" [7]).disk.countP (fun e => e.2 == [7]) = 1) ∧
    ((get_icon_download (fun _ => "H") (fun s => s ++ "!")
        (get_icon_download (fun _ => "H") (fun s => s ++ "!") ⟨[], []⟩ "a" [7])
        "b" [7]).disk.lookup ("b" ++ "!") = none) :=
  icon_dedup (fun _ => "H") (fun s => s ++ "!") ⟨[], []⟩ "a" "b" [7]
    (by decide) (by decide) (by decide) (by decide)
    rfl rfl rfl rfl rfl rfl

/-- Closed form of the filter-reconciliation loop: the surviving
original instances are those whose name is not being disabled, and the
freshly appended instances are exactly the newly enabled names, in
order, each constructed from its persisted settings string. -/
theorem reconcile_eq (enabled ef : List String) (fset : List (String × String))
    (names : List String) :
    ∀ fs : List (String × String),
      names.foldl (filterStep enabled ef fset) fs =
        fs.filter (fun p =>
          !(decide (p.1 ∈ names) && decide (p.1 ∈ enabled) &&
            !decide (p.1 ∈ ef))) ++
        (names.filter (fun n => !decide (n ∈ enabled) && decide (n ∈ ef))).map
          (fun n => (n, ((fset.lookup n).getD ""))) := by
  induction names with
  | nil =>
      intro fs
      simp
  | cons n ns ih =>
      intro fs
      rw [List.foldl_cons, ih]
      by_cases hrem : n ∈ enabled ∧ n ∉ ef
      · have hstep : filterStep enabled ef fset fs n =
            fs.filter (fun f => f.1 != n) := by
          unfold filterStep
          rw [if_pos hrem, if_neg (fun h => h.1 hrem.1)]
        rw [hstep, List.filter_filter]
        have happ : (n :: ns).filter
            (fun x => !decide (x ∈ enabled) && decide (x ∈ ef)) =
            ns.filter (fun x => !decide (x ∈ enabled) && decide (x ∈ ef)) := by
          rw [List.filter_cons]
          simp [hrem.1]
        rw [happ]
        have hcongr : ∀ p ∈ fs,
            ((!(decide (p.1 ∈ ns) && decide (p.1 ∈ enabled) &&
              !decide (p.1 ∈ ef))) && (p.1 != n)) =
            (!(decide (p.1 ∈ n :: ns) && decide (p.1 ∈ enabled) &&
              !decide (p.1 ∈ ef))) := by
          intro p _
          by_cases hpn : p.1 = n
          · simp [hpn, List.mem_cons, hrem.1, hrem.2]
          · simp [hpn, List.mem_cons]
        rw [List.filter_congr hcongr]
      · by_cases hadd : n ∉ enabled ∧ n ∈ ef
        · have hstep : filterStep enabled ef fset fs n =
              fs ++ [(n, ((fset.lookup n).getD ""))] := by
            unfold filterStep
            rw [if_neg hrem, if_pos hadd]
          rw [hstep, List.filter_append]
          have hone : [(n, ((fset.lookup n).getD ""))].filter
              (fun p => !(decide (p.1 ∈ ns) && decide (p.1 ∈ enabled) &&
                !decide (p.1 ∈ ef))) = [(n, ((fset.lookup n).getD ""))] := by
            rw [List.filter_cons]
            simp [hadd.1]
          rw [hone]
          have happ : (n :: ns).filter
              (fun x => !decide (x ∈ enabled) && decide (x ∈ ef)) =
              n :: ns.filter (fun x => !decide (x ∈ enabled) && decide (x ∈ ef)) := by
            rw [List.filter_cons]
            simp [hadd.1, hadd.2]
          rw [happ]
          have hcongr : ∀ p ∈ fs,
              (!(decide (p.1 ∈ ns) && decide (p.1 ∈ enabled) &&
                !decide (p.1 ∈ ef))) =
              (!(decide (p.1 ∈ n :: ns) && decide (p.1 ∈ enabled) &&
                !decide (p.1 ∈ ef))) := by
            intro p _
            by_cases hpn : p.1 = n
            · simp [hpn, List.mem_cons, hadd.1]
            · simp [hpn, List.mem_cons]
          rw [List.filter_congr hcongr, List.map_cons, List.append_assoc,
            List.singleton_append]
        · have hstep : filterStep enabled ef fset fs n = fs := by
            unfold filterStep
            rw [if_neg hrem, if_neg hadd]
          rw [hstep]
          have happ : (n :: ns).filter
              (fun x => !decide (x ∈ enabled) && decide (x ∈ ef)) =
              ns.filter (fun x => !decide (x ∈ enabled) && decide (x ∈ ef)) := by
            rw [List.filter_cons]
            by_cases he : n ∈ enabled
            · simp [he]
            · have hef : n ∉ ef := fun h => hadd ⟨he, h⟩
              simp [he, hef]
          rw [happ]
          have hcongr : ∀ p ∈ fs,
              (!(decide (p.1 ∈ ns) && decide (p.1 ∈ enabled) &&
                !decide (p.1 ∈ ef))) =
              (!(decide (p.1 ∈ n :: ns) && decide (p.1 ∈ enabled) &&
                !decide (p.1 ∈ ef))) := by
            intro p _
            by_cases hpn : p.1 = n
            · by_cases he : n ∈ enabled
              · have hef : n ∈ ef := by
                  by_contra hef
                  exact hrem ⟨he, hef⟩
                simp [hpn, List.mem_cons, he, hef]
              · simp [hpn, List.mem_cons, he]
            · simp [hpn, List.mem_cons]
          rw [List.filter_congr hcongr]

/-- Claim C8: an `enabled-filters` change recomputes the service
prefix filters to exactly the prefixes of the enabled processors, and
reconciles the custom filter set: a name's instance is active
afterwards exactly when the name is enabled (so disabling removes it
and removing an absent name is a no-op), newly enabled names are
instantiated from their persisted settings string (defaulting to
empty) and appended, and names stay unique — at most one active
instance per custom filter name. -/
theorem enabled_filters_reconciliation (s : Settings) (af : List String)
    (procs : List (String × String)) (st : DaemonState)
    (hA : af.Nodup)
    (hN : (st.filters.map Prod.fst).Nodup) :
    ((settings_changed s af procs "enabled-filters" st).service_filters =
      (procs.filter (fun p => decide (p.1 ∈ s.enabled_filters))).map Prod.snd) ∧
    (∀ name ∈ af,
      (name ∈ (settings_changed s af procs "enabled-filters" st).filters.map
          Prod.fst ↔ name ∈ s.enabled_filters)) ∧
    (∀ name ∈ af, name ∉ st.filters.map Prod.fst → name ∈ s.enabled_filters →
      (name, ((s.filter_settings.lookup name).getD "")) ∈
        (settings_changed s af procs "enabled-filters" st).filters) ∧
    ((settings_changed s af procs "enabled-filters" st).filters.map
      Prod.fst).Nodup := by
  have hsc : (settings_changed s af procs "enabled-filters" st).filters =
      af.foldl (filterStep (st.filters.map Prod.fst) s.enabled_filters
        s.filter_settings) st.filters := by
    rfl
  have hsv : (settings_changed s af procs "enabled-filters" st).service_filters =
      (procs.filter (fun p => decide (p.1 ∈ s.enabled_filters))).map Prod.snd := by
    rfl
  rw [hsc, hsv, reconcile_eq]
  refine ⟨rfl, ?_, ?_, ?_⟩
  · intro name hname
    rw [List.map_append, List.mem_append]
    constructor
    · rintro (hm | hm)
      · obtain ⟨p, hpf, hp1⟩ := List.mem_map.mp hm
        obtain ⟨hpfs, hP⟩ := List.mem_filter.mp hpf
        have hen : name ∈ st.filters.map Prod.fst :=
          hp1 ▸ List.mem_map_of_mem Prod.fst hpfs
        rw [hp1] at hP
        simp [hname, hen] at hP
        exact hP
      · obtain ⟨x, hxf, hx1⟩ := List.mem_map.mp hm
        obtain ⟨n, hnf, hng⟩ := List.mem_map.mp hxf
        obtain ⟨_, hc⟩ := List.mem_filter.mp hnf
        simp at hc
        rw [← hx1, ← hng]
        exact hc.2
    · intro hef
      by_cases hen : name ∈ st.filters.map Prod.fst
      · obtain ⟨p, hpfs, hp1⟩ := List.mem_map.mp hen
        left
        refine List.mem_map.mpr ⟨p, List.mem_filter.mpr ⟨hpfs, ?_⟩, hp1⟩
        simp [hp1, hef]
      · right
        refine List.mem_map.mpr
          ⟨(name, ((s.filter_settings.lookup name).getD "")), ?_, rfl⟩
        exact List.mem_map.mpr
          ⟨name, List.mem_filter.mpr ⟨hname, by simp [hen, hef]⟩, rfl⟩
  · intro name hname hen hef
    rw [List.mem_append]
    right
    refine List.mem_map.mpr ⟨name, List.mem_filter.mpr ⟨hname, ?_⟩, rfl⟩
    simp [hen, hef]
  · rw [List.map_append]
    apply List.Nodup.append
    · exact hN.sublist (List.Sublist.map Prod.fst (List.filter_sublist _))
    · have : ((af.filter (fun n => !decide (n ∈ st.filters.map Prod.fst) &&
          decide (n ∈ s.enabled_filters))).map
          (fun n => (n, ((s.filter_settings.lookup n).getD "")))).map Prod.fst =
          af.filter (fun n => !decide (n ∈ st.filters.map Prod.fst) &&
            decide (n ∈ s.enabled_filters)) := by
        rw [List.map_map]
        exact List.map_id'' (fun x => rfl) _
      rw [this]
      exact hA.filter _
    · intro a ha1 ha2
      obtain ⟨p, hpf, hp1⟩ := List.mem_map.mp ha1
      obtain ⟨hpfs, _⟩ := List.mem_filter.mp hpf
      have hen : a ∈ st.filters.map Prod.fst :=
        hp1 ▸ List.mem_map_of_mem Prod.fst hpfs
      obtain ⟨x, hxf, hx1⟩ := List.mem_map.mp ha2
      obtain ⟨n, hnf, hng⟩ := List.mem_map.mp hxf
      obtain ⟨_, hc⟩ := List.mem_filter.mp hnf
      rw [Bool.and_eq_true, Bool.not_eq_true', decide_eq_false_iff_not,
        decide_eq_true_eq] at hc
      rw [← hx1, ← hng] at hen
      exact hc.1 hen

/-- Claim C8 (witness): the reconciliation at a concrete state with
filters `A`, `C` active and names `B`, `C` enabled — `A` is removed,
`B` is instantiated from its persisted settings, `C` is kept, the
service prefixes are recomputed, and names stay unique. -/
theorem enabled_filters_reconciliation_witness :
    ((settings_changed s8 ["A", "B", "C"] procs8 "enabled-filters" stReg).service_filters =
      (procs8.filter (fun p => decide (p.1 ∈ s8.enabled_filters))).map Prod.snd) ∧
    (∀ name ∈ ["A", "B", "C"],
      (name ∈ (settings_changed s8 ["A", "B", "C"] procs8 "enabled-filters" stReg).filters.map
          Prod.fst ↔ name ∈ s8.enabled_filters)) ∧
    (∀ name ∈ ["A", "B", "C"], name ∉ stReg.filters.map Prod.fst →
      name ∈ s8.enabled_filters →
      (name, ((s8.filter_settings.lookup name).getD "")) ∈
        (settings_changed s8 ["A", "B", "C"] procs8 "enabled-filters" stReg).filters) ∧
    ((settings_changed s8 ["A", "B", "C"] procs8 "enabled-filters" stReg).filters.map
      Prod.fst).Nodup :=
  enabled_filters_reconciliation s8 ["A", "B", "C"] procs8 stReg
    (by decide) (by decide)

end FedmsgNotify
